import Mathlib

set_option maxRecDepth 40000

/-
Shallow embedding of the pmc-marketplace ticket-status scripts:
  src/plugins/pmc/skills/ticket-status/scripts/check_ticket.py
  src/plugins/pmc/skills/ticket-status/scripts/check_tests.py
File contents are modelled as Lean strings; the handful of regular
expressions the scripts use are embedded as explicit scanners over the
character list of the string, reproducing the leftmost-search semantics
of Python re.search for those concrete patterns.
-/

namespace PMC

/-- Whitespace in the Python ASCII sense (the class matched by the regex
escape for whitespace and stripped by str.strip): space, tab, newline,
carriage return, vertical tab (11), form feed (12). -/
def isSpaceChar (c : Char) : Bool :=
  c = ' ' || c = '\t' || c = '\n' || c = '\r' || c.toNat = 11 || c.toNat = 12

/-- Python str.strip: drop leading and trailing whitespace. -/
def trimL (s : List Char) : List Char :=
  ((s.dropWhile isSpaceChar).reverse.dropWhile isSpaceChar).reverse

/-- Case-insensitive literal match: the pattern is given in lowercase;
on success return the remaining input. -/
def matchCI : List Char → List Char → Option (List Char)
  | [], s => some s
  | _ :: _, [] => none
  | p :: ps, c :: cs => if c.toLower = p then matchCI ps cs else none

/-- Does hay start with needle (exact characters)? -/
def startsWithL : List Char → List Char → Bool
  | [], _ => true
  | _ :: _, [] => false
  | a :: as, b :: bs => a = b && startsWithL as bs

/-- Python substring containment (needle in hay), case sensitive. -/
def containsSubL (needle : List Char) : List Char → Bool
  | [] => startsWithL needle []
  | c :: rest => startsWithL needle (c :: rest) || containsSubL needle rest

/-- Substring containment on strings, as the Python in operator. -/
def isSubstrOf (needle hay : String) : Bool :=
  containsSubL needle.data hay.data

/-- Python str.lower (ASCII letters; the scripts only feed ASCII). -/
def lowerStr (s : String) : String :=
  String.mk (s.data.map Char.toLower)

/-- Python name.lower().replace(' ', '_') used for coverage matching. -/
def underscoreLower (s : String) : String :=
  String.mk (s.data.map (fun c => if c.toLower = ' ' then '_' else c.toLower))

/-- Embeds the greedy-then-backtrack step of the whitespace-star-newline
regex tail: consume the maximal whitespace run and return the suffix
after the last newline inside it, or none when the run holds no newline. -/
def consumeWsNl : List Char → Option (List Char)
  | [] => none
  | c :: rest =>
    if c = '\n' then
      match consumeWsNl rest with
      | some r => some r
      | none => some rest
    else if isSpaceChar c then consumeWsNl rest
    else none

/-- The lazy dot-star before the lookahead for a newline followed by two
hashes: the prefix of the input before the first such occurrence (or the
whole input when none occurs). -/
def takeUntilNlHH : List Char → List Char
  | [] => []
  | c :: rest =>
    if c = '\n' ∧ startsWithL "##".data rest = true then []
    else c :: takeUntilNlHH rest

/-- Attempt to match the Constraints section header regex at the current
position: two hashes, optional whitespace, the word Constraints
case-insensitively, then whitespace ending in a newline. On success
return the input just after the header line. -/
def headerMatchAt (s : List Char) : Option (List Char) :=
  match s with
  | c1 :: c2 :: rest =>
    if c1 = '#' ∧ c2 = '#' then
      match matchCI "constraints".data (rest.dropWhile isSpaceChar) with
      | some r => consumeWsNl r
      | none => none
    else none
  | _ => none

/-- Leftmost search for the Constraints section header; on success return
the section body (text up to the next h2 heading or end of input).
Embeds the section regex of check_tdd_enabled in check_ticket.py. -/
def findConstraintsFrom : List Char → Option (List Char)
  | [] => none
  | c :: rest =>
    match headerMatchAt (c :: rest) with
    | some afterHdr => some (takeUntilNlHH afterHdr)
    | none => findConstraintsFrom rest

/-- Does the TDD opt-out pattern (TDD colon optional-whitespace no,
case-insensitive) match at the current position? -/
def tddNoAt (s : List Char) : Bool :=
  match matchCI "tdd:".data s with
  | some r => (matchCI "no".data (r.dropWhile isSpaceChar)).isSome
  | none => false

/-- Leftmost search for the TDD opt-out pattern anywhere in the text. -/
def containsTddNoL : List Char → Bool
  | [] => false
  | c :: rest => tddNoAt (c :: rest) || containsTddNoL rest

/-- Final disposition parsed from 5-final.md. -/
inductive FinalStatus where
  | COMPLETE
  | BLOCKED
deriving DecidableEq, Repr

/-- Does the disposition pattern (Status colon optional-whitespace then
COMPLETE or BLOCKED, case-insensitive) match at the current position? -/
def finalTokenAt (s : List Char) : Option FinalStatus :=
  match matchCI "status:".data s with
  | some r =>
    let r1 := r.dropWhile isSpaceChar
    if (matchCI "complete".data r1).isSome then some FinalStatus.COMPLETE
    else if (matchCI "blocked".data r1).isSome then some FinalStatus.BLOCKED
    else none
  | none => none

/-- Leftmost search for the disposition token in the closing document. -/
def parseFinalFrom : List Char → Option FinalStatus
  | [] => none
  | c :: rest =>
    match finalTokenAt (c :: rest) with
    | some f => some f
    | none => parseFinalFrom rest

/-- parse_final_status of check_ticket.py: none when 5-final.md is
absent, otherwise the leftmost disposition token if any. -/
def parse_final_status (finalDoc : Option String) : Option FinalStatus :=
  finalDoc.bind (fun c => parseFinalFrom c.data)

/-- check_tdd_enabled of check_ticket.py: enabled by default; disabled
only when the first Constraints section body contains the opt-out. -/
def check_tdd_enabled (defDoc : Option String) : Bool :=
  match defDoc with
  | none => true
  | some content =>
    match findConstraintsFrom content.data with
    | none => true
    | some body => !(containsTddNoL body)

/-- DocStatus dataclass of check_ticket.py. -/
structure DocStatus where
  exists_ : Bool := false
  has_content : Bool := false
deriving DecidableEq, Repr

/-- check_doc of check_ticket.py: content is meaningful when the
stripped text is longer than 50 characters. -/
def check_doc (f : Option String) : DocStatus :=
  match f with
  | none => { exists_ := false, has_content := false }
  | some content => { exists_ := true, has_content := decide (50 < (trimL content.data).length) }

/-- One raw test object of the tests array of tests.json, after the
Python-side defaulting of absent keys (status defaults to pending,
required to false, red_verified to falsy, trajectory to the empty
list); trajectory entries are kept as their stringified form. -/
structure RawTest where
  id : String
  name : String
  status : String
  required : Bool
  red_verified : Bool
  trajectory : List String
deriving DecidableEq, Repr

/-- The three observable states of the tests.json file. -/
inductive ManifestFile where
  | absent
  | malformed (err : String)
  | parsed (tests : List RawTest)
deriving DecidableEq, Repr

/-- TestInfo dataclass of check_ticket.py. -/
structure TestInfo where
  id : String
  name : String
  status : String
  required : Bool
  red_verified : Bool
  has_trajectory : Bool
deriving DecidableEq, Repr

/-- TestsStatus dataclass of check_ticket.py. -/
structure TestsStatus where
  exists_ : Bool := false
  total : Nat := 0
  passed : Nat := 0
  failed : Nat := 0
  blocked : Nat := 0
  pending : Nat := 0
  required_passed : Nat := 0
  required_total : Nat := 0
  all_red_verified : Bool := false
  tests : List TestInfo := []
deriving DecidableEq, Repr

/-- The TestInfo record built for one raw test in check_tests of
check_ticket.py. -/
def infoOf (t : RawTest) : TestInfo :=
  { id := t.id, name := t.name, status := t.status, required := t.required,
    red_verified := t.red_verified, has_trajectory := !t.trajectory.isEmpty }

/-- Loop body of check_tests in check_ticket.py: one pass over a test
record, updating the accumulated TestsStatus and the running
all-red-verified flag. -/
def tallyStep (acc : TestsStatus × Bool) (t : RawTest) : TestsStatus × Bool :=
  let st := acc.1
  let st := { st with tests := st.tests ++ [infoOf t] }
  let st :=
    if t.status = "passed" then
      { st with passed := st.passed + 1,
                required_passed := if t.required then st.required_passed + 1 else st.required_passed }
    else if t.status = "failed" then { st with failed := st.failed + 1 }
    else if t.status = "blocked" then { st with blocked := st.blocked + 1 }
    else { st with pending := st.pending + 1 }
  let st := if t.required then { st with required_total := st.required_total + 1 } else st
  (st, acc.2 && t.red_verified)

/-- check_tests of check_ticket.py: the default TestsStatus when the
file is absent or fails to parse, otherwise the tallied aggregate with
all_red_verified requiring a non-empty manifest. -/
def check_tests_ct (m : ManifestFile) : TestsStatus :=
  match m with
  | ManifestFile.absent => {}
  | ManifestFile.malformed _ => {}
  | ManifestFile.parsed ts =>
    let st0 : TestsStatus := { exists_ := true, total := ts.length }
    let r := ts.foldl tallyStep (st0, true)
    { r.1 with all_red_verified := r.2 && decide (0 < r.1.total) }

/-- TicketStatus dataclass of check_ticket.py; docs is the dict keyed
by document file name. -/
structure TicketStatus where
  ticket_id : String
  exists_ : Bool := false
  docs : List (String × DocStatus) := []
  final_status : Option FinalStatus := none
  tests : TestsStatus := {}
  next_step : String := "missing-docs"
  next_step_detail : String := ""
  tdd_enabled : Bool := true
deriving DecidableEq, Repr

/-- Required documents for a ticket (REQUIRED_DOCS). -/
def REQUIRED_DOCS : List String := ["1-definition.md", "2-plan.md", "3-spec.md"]

/-- FINAL_DOC constant. -/
def FINAL_DOC : String := "5-final.md"

/-- Dict-style lookup of a document status. -/
def docsGet (docs : List (String × DocStatus)) (doc : String) : Option DocStatus :=
  docs.lookup doc

/-- The membership-and-existence test of the missing-docs loop in
determine_next_step: the document is in the dict and exists on disk. -/
def isDocPresent (docs : List (String × DocStatus)) (doc : String) : Bool :=
  match docsGet docs doc with
  | none => false
  | some ds => ds.exists_

/-- The needs-spec test of determine_next_step: the spec document entry
is present in the dict and its has_content flag is false. -/
def specLacksContent (docs : List (String × DocStatus)) : Bool :=
  (docsGet docs "3-spec.md").any (fun ds => !ds.has_content)

/-- Comma-space join of a list of strings. -/
def joinComma (xs : List String) : String := String.intercalate ", " xs

/-- determine_next_step of check_ticket.py, translated branch for
branch; the early returns of the Python body become the arms of one
if-chain, and the trailing 5-final.md checks (shared by the
gate-enabled and gate-disabled paths) are the final arms. -/
def determine_next_step (st : TicketStatus) : String × String :=
  if st.exists_ = false then
    ("missing-docs", "Ticket directory " ++ st.ticket_id ++ " not found")
  else
    let missing_docs := REQUIRED_DOCS.filter (fun doc => !isDocPresent st.docs doc)
    if missing_docs ≠ [] then
      ("missing-docs", "Missing: " ++ joinComma missing_docs)
    else if st.tdd_enabled = true ∧ specLacksContent st.docs = true then
      ("needs-spec", "3-spec.md exists but needs test specification")
    else if st.final_status = some FinalStatus.COMPLETE then
      ("complete", "Ticket marked COMPLETE in 5-final.md")
    else if st.final_status = some FinalStatus.BLOCKED then
      ("blocked", "Ticket marked BLOCKED in 5-final.md")
    else if st.tdd_enabled = true ∧ st.tests.exists_ = false then
      ("needs-tests", "No tests.json found - create test definitions")
    else if st.tdd_enabled = true ∧ st.tests.total = 0 then
      ("needs-tests", "tests.json exists but has no tests defined")
    else if st.tdd_enabled = true ∧ 0 < st.tests.blocked then
      ("tests-blocked", "Blocked tests: " ++
        joinComma ((st.tests.tests.filter (fun t => t.status = "blocked")).map (fun t => t.id)))
    else if st.tdd_enabled = true ∧ st.tests.all_red_verified = false then
      ("red-phase", "Run RED phase for: " ++
        joinComma ((st.tests.tests.filter (fun t => t.red_verified = false)).map (fun t => t.id)))
    else if st.tdd_enabled = true ∧ 0 < st.tests.failed then
      ("tests-failing", "Failing tests: " ++
        joinComma ((st.tests.tests.filter (fun t => t.status = "failed")).map (fun t => t.id)))
    else if st.tdd_enabled = true ∧ 0 < st.tests.pending then
      ("needs-impl", "Implement to pass: " ++
        joinComma ((st.tests.tests.filter (fun t => t.status = "pending")).map (fun t => t.id)))
    else if st.tdd_enabled = true ∧ st.tests.required_passed < st.tests.required_total then
      ("needs-impl", "Required tests: " ++ toString st.tests.required_passed ++ "/" ++
        toString st.tests.required_total ++ " passed")
    else
      match docsGet st.docs FINAL_DOC with
      | none => ("needs-final", "Tests pass - create 5-final.md with Status: COMPLETE")
      | some fs =>
        if fs.exists_ = false then
          ("needs-final", "Tests pass - create 5-final.md with Status: COMPLETE")
        else if fs.has_content = false then
          ("needs-final", "5-final.md exists but needs Status: COMPLETE")
        else
          match st.final_status with
          | none => ("needs-final", "5-final.md missing Status: COMPLETE or BLOCKED")
          | some _ => ("complete", "All requirements met")

/-- The five documents a ticket directory may hold (file contents, none
when the file is absent). -/
structure TicketDir where
  definition : Option String := none
  plan : Option String := none
  spec : Option String := none
  progress : Option String := none
  final : Option String := none
deriving DecidableEq, Repr

/-- The filesystem facts one check_ticket run reads: the ticket
directory (none when absent) and the tests.json state. -/
structure TicketFS where
  dir : Option TicketDir := none
  manifest : ManifestFile := ManifestFile.absent
deriving DecidableEq, Repr

/-- check_ticket of check_ticket.py. -/
def check_ticket (ticket_id : String) (fs : TicketFS) : TicketStatus :=
  match fs.dir with
  | none =>
    let st : TicketStatus := { ticket_id := ticket_id }
    let ns := determine_next_step st
    { st with next_step := ns.1, next_step_detail := ns.2 }
  | some d =>
    let st : TicketStatus :=
      { ticket_id := ticket_id
        exists_ := true
        tdd_enabled := check_tdd_enabled d.definition
        docs := [("1-definition.md", check_doc d.definition),
                 ("2-plan.md", check_doc d.plan),
                 ("3-spec.md", check_doc d.spec),
                 ("4-progress.md", check_doc d.progress),
                 ("5-final.md", check_doc d.final)]
        final_status := parse_final_status d.final
        tests := check_tests_ct fs.manifest }
    let ns := determine_next_step st
    { st with next_step := ns.1, next_step_detail := ns.2 }

/-- Exit-code mapping of main in check_ticket.py. -/
def exit_code (next_step : String) : Nat :=
  if next_step = "complete" then 0
  else if next_step = "blocked" then 2
  else 1

/-- TestDetail dataclass of check_tests.py. -/
structure TestDetail where
  id : String
  name : String
  status : String
  required : Bool
  red_verified : Bool
  has_trajectory : Bool
  trajectory_count : Nat
  has_red_marker : Bool
  has_green_marker : Bool
  issues : List String := []
deriving DecidableEq, Repr

/-- SpecCase dataclass of check_tests.py. -/
structure SpecCase where
  name : String
  covered : Bool
  test_id : Option String := none
deriving DecidableEq, Repr

/-- TestsCheckStatus dataclass of check_tests.py; the coverage
percentage (a Python float) is carried as a rational. -/
structure TestsCheckStatus where
  ticket_id : String
  tests_json_exists : Bool := false
  spec_exists : Bool := false
  total_tests : Nat := 0
  tests : List TestDetail := []
  spec_cases : List SpecCase := []
  coverage_pct : ℚ := 0
  all_red_verified : Bool := false
  all_trajectories_complete : Bool := false
  issues : List String := []
  valid : Bool := false
  next_step : String := ""
deriving DecidableEq, Repr

/-- Space join of the stringified trajectory entries. -/
def joinSpace (xs : List String) : String := String.intercalate " " xs

/-- The TestDetail built for one record in check_tests of
check_tests.py, including its per-record issue list (the four passed
record diagnostics, appended in source order). -/
def recordDetail (t : RawTest) : TestDetail :=
  let trajectory_str := joinSpace t.trajectory
  let has_traj := decide (0 < t.trajectory.length)
  let has_red := isSubstrOf "[RED]" trajectory_str
  let has_green := isSubstrOf "[GREEN]" trajectory_str
  let issues :=
    if t.status = "passed" then
      (if has_traj = false then ["Passed but no trajectory recorded"] else []) ++
      (if t.red_verified = false then ["Passed but RED phase not verified"] else []) ++
      (if has_red = false ∧ has_traj = true then ["Trajectory missing [RED] marker"] else []) ++
      (if has_green = false ∧ has_traj = true then ["Trajectory missing [GREEN] marker"] else [])
    else []
  { id := t.id, name := t.name, status := t.status, required := t.required,
    red_verified := t.red_verified, has_trajectory := has_traj,
    trajectory_count := t.trajectory.length, has_red_marker := has_red,
    has_green_marker := has_green, issues := issues }

/-- The two manifest-level issue lines a record contributes in
check_tests of check_tests.py. -/
def recordIssuesGlobal (t : RawTest) : List String :=
  (if t.status = "passed" ∧ t.trajectory.length = 0 then
    [t.id ++ ": passed without trajectory"] else []) ++
  (if t.status = "passed" ∧ t.red_verified = false then
    [t.id ++ ": missing red_verified"] else [])

/-- The coverage test of check_tests.py line 182: the lowercased case
name is a substring of the normalized test name or of the lowercased
test id, or the normalized test name is a substring of the case name. -/
def coverMatch (scName : String) (t : RawTest) : Bool :=
  let test_name_lower := underscoreLower t.name
  let test_id_lower := lowerStr t.id
  let sc_lower := lowerStr scName
  isSubstrOf sc_lower test_name_lower || isSubstrOf sc_lower test_id_lower ||
    isSubstrOf test_name_lower sc_lower

/-- Accumulator of the record loop in check_tests of check_tests.py. -/
structure LoopAcc where
  tests : List TestDetail := []
  issues : List String := []
  all_red : Bool := true
  all_traj : Bool := true
  cases : List SpecCase := []
deriving Repr

/-- One iteration of the record loop of check_tests in check_tests.py:
build the detail, collect manifest-level issues, update the running
flags, and mark coverage on every matching spec case. -/
def stepStandalone (acc : LoopAcc) (t : RawTest) : LoopAcc :=
  let d := recordDetail t
  { tests := acc.tests ++ [d]
    issues := acc.issues ++ recordIssuesGlobal t
    all_red := acc.all_red && t.red_verified
    all_traj := acc.all_traj && !(t.status = "passed" && t.trajectory.isEmpty)
    cases := acc.cases.map (fun sc =>
      if coverMatch sc.name t then { sc with covered := true, test_id := some d.id } else sc) }

/-- check_tests of check_tests.py. The spec argument carries the case
names extracted from 3-spec.md by the parse_spec_cases heuristics
(none when the spec document is absent); the manifest argument carries
the observable state of tests.json. -/
def checkTestsStandalone (ticket_id : String) (spec : Option (List String))
    (m : ManifestFile) : TestsCheckStatus :=
  let st0 : TestsCheckStatus :=
    { ticket_id := ticket_id
      spec_exists := spec.isSome
      spec_cases := (spec.getD []).map (fun c => { name := c, covered := false }) }
  match m with
  | ManifestFile.absent =>
    { st0 with issues := ["tests.json not found"],
               next_step := "Create tests.json from 3-spec.md" }
  | ManifestFile.malformed e =>
    { st0 with tests_json_exists := true,
               issues := ["Failed to parse tests.json: " ++ e],
               next_step := "Fix tests.json syntax" }
  | ManifestFile.parsed ts =>
    let st1 := { st0 with tests_json_exists := true, total_tests := ts.length }
    if ts.length = 0 then
      { st1 with issues := ["tests.json has no tests defined"],
                 next_step := "Add test definitions to tests.json" }
    else
      let acc := ts.foldl stepStandalone
        { tests := [], issues := [], all_red := true, all_traj := true, cases := st1.spec_cases }
      let covered := (acc.cases.filter (fun sc => sc.covered)).length
      let pct : ℚ := if acc.cases.length ≠ 0 then
        ((covered : ℚ) / (acc.cases.length : ℚ)) * 100 else 0
      let st2 : TestsCheckStatus :=
        { st1 with tests := acc.tests, issues := acc.issues,
                   spec_cases := acc.cases, coverage_pct := pct,
                   all_red_verified := acc.all_red,
                   all_trajectories_complete := acc.all_traj }
      if st2.issues ≠ [] then
        { st2 with
          valid := false,
          next_step :=
            if acc.all_red = false then "Run RED phase for tests missing red_verified"
            else if acc.all_traj = false then "Re-run tests and record trajectory"
            else "Fix issues listed above" }
      else
        let pendingL := acc.tests.filter (fun t => t.status = "pending")
        let failedL := acc.tests.filter (fun t => t.status = "failed")
        let blockedL := acc.tests.filter (fun t => t.status = "blocked")
        { st2 with
          valid := true,
          next_step :=
            if blockedL ≠ [] then
              "Resolve blocked tests: " ++ joinComma (blockedL.map (fun t => t.id))
            else if failedL ≠ [] then
              "Fix failing tests: " ++ joinComma (failedL.map (fun t => t.id))
            else if pendingL ≠ [] then
              (if acc.all_red = false then
                "Run RED phase: " ++ joinComma
                  ((pendingL.filter (fun t => t.red_verified = false)).map (fun t => t.id))
              else
                "Implement to pass: " ++ joinComma (pendingL.map (fun t => t.id)))
            else "All tests passed with valid trajectory" }

/-- Sample definition document: no Constraints section, enough content
to pass the meaningful-content threshold. -/
def docDefSample : String :=
  "# T00021 definition\nThis ticket implements the frobnicator for the marketplace flow.\n"

/-- Sample plan document with meaningful content. -/
def docPlanSample : String :=
  "# Plan\nStep one: write the tests. Step two: implement. Step three: verify.\n"

/-- Sample spec document with meaningful content. -/
def docSpecSample : String :=
  "# Spec\nCovers the frobnicator happy path and each failure path in detail.\n"

/-- Sample closing document carrying an explicit COMPLETE disposition. -/
def docFinalComplete : String :=
  "# Final\nStatus: COMPLETE\nAll tasks done and the outcome was reviewed by the team.\n"

/-- Ticket directory with the three required documents present and
meaningful, no progress document and no closing document. -/
def dirFullSample : TicketDir :=
  { definition := some docDefSample, plan := some docPlanSample,
    spec := some docSpecSample, progress := none, final := none }

/-- Ticket directory additionally carrying a COMPLETE closing document. -/
def dirCompleteSample : TicketDir :=
  { dirFullSample with final := some docFinalComplete }

/-- One required failing record with no RED evidence. -/
def tsFailingSample : List RawTest :=
  [{ id := "t1", name := "check fails", status := "failed", required := true,
     red_verified := false, trajectory := [] }]

/-- One optional running record that is RED-verified. -/
def tsRunningSample : List RawTest :=
  [{ id := "t1", name := "check runs", status := "running", required := false,
     red_verified := true, trajectory := ["[RED] attempt"] }]

/-- Filesystem state: full docs, malformed manifest. -/
def fsMalSample : TicketFS :=
  { dir := some dirFullSample,
    manifest := ManifestFile.malformed "Expecting value: line 1 column 1 (char 0)" }

/-- Filesystem state: full docs, absent manifest. -/
def fsAbsSample : TicketFS :=
  { dir := some dirFullSample, manifest := ManifestFile.absent }

/-- Filesystem state: full docs, manifest holding one running record. -/
def fsRunningSample : TicketFS :=
  { dir := some dirFullSample, manifest := ManifestFile.parsed tsRunningSample }

/-- Filesystem state: COMPLETE closing document over a failing manifest. -/
def fsCompleteFailing : TicketFS :=
  { dir := some dirCompleteSample, manifest := ManifestFile.parsed tsFailingSample }

/-- One required pending record that is RED-verified. -/
def tsPendingSample : List RawTest :=
  [{ id := "t1", name := "check pends", status := "pending", required := true,
     red_verified := true, trajectory := ["[RED] attempt"] }]

/-- Document-status table with the three required documents present and
meaningful and the progress and closing documents absent. -/
def docsTableSample : List (String × DocStatus) :=
  [("1-definition.md", { exists_ := true, has_content := true }),
   ("2-plan.md", { exists_ := true, has_content := true }),
   ("3-spec.md", { exists_ := true, has_content := true }),
   ("4-progress.md", { exists_ := false, has_content := false }),
   ("5-final.md", { exists_ := false, has_content := false })]

/-- Ticket state: gate disabled, docs present, no disposition, no
closing document. -/
def stNeedsFinalSample : TicketStatus :=
  { ticket_id := "T00031", exists_ := true, docs := docsTableSample,
    final_status := none, tests := {}, tdd_enabled := false }

/-- Ticket state: gate enabled, docs present, no disposition, manifest
holding one RED-verified pending record. -/
def stNeedsImplSample : TicketStatus :=
  { ticket_id := "T00032", exists_ := true, docs := docsTableSample,
    final_status := none, tests := check_tests_ct (ManifestFile.parsed tsPendingSample),
    tdd_enabled := true }

/-- Field-by-field effect of one tallying step. -/
lemma tallyStep_spec (acc : TestsStatus × Bool) (t : RawTest) :
    (tallyStep acc t).1.exists_ = acc.1.exists_ ∧
    (tallyStep acc t).1.total = acc.1.total ∧
    (tallyStep acc t).1.passed = acc.1.passed + (if t.status = "passed" then 1 else 0) ∧
    (tallyStep acc t).1.failed = acc.1.failed + (if t.status = "failed" then 1 else 0) ∧
    (tallyStep acc t).1.blocked = acc.1.blocked + (if t.status = "blocked" then 1 else 0) ∧
    (tallyStep acc t).1.pending = acc.1.pending +
      (if t.status ≠ "passed" ∧ t.status ≠ "failed" ∧ t.status ≠ "blocked" then 1 else 0) ∧
    (tallyStep acc t).1.required_passed = acc.1.required_passed +
      (if t.required = true ∧ t.status = "passed" then 1 else 0) ∧
    (tallyStep acc t).1.required_total = acc.1.required_total +
      (if t.required = true then 1 else 0) ∧
    (tallyStep acc t).2 = (acc.2 && t.red_verified) ∧
    (tallyStep acc t).1.tests = acc.1.tests ++ [infoOf t] := by
  by_cases hp : t.status = "passed" <;>
    by_cases hf : t.status = "failed" <;>
      by_cases hb : t.status = "blocked" <;>
        by_cases hr : t.required = true <;>
          · simp_all [tallyStep]

/-- Effect of folding the tallying step over a record list. -/
lemma foldl_tallyStep_spec (ts : List RawTest) : ∀ (acc : TestsStatus × Bool),
    (ts.foldl tallyStep acc).1.exists_ = acc.1.exists_ ∧
    (ts.foldl tallyStep acc).1.total = acc.1.total ∧
    (ts.foldl tallyStep acc).1.passed =
      acc.1.passed + ts.countP (fun t => decide (t.status = "passed")) ∧
    (ts.foldl tallyStep acc).1.failed =
      acc.1.failed + ts.countP (fun t => decide (t.status = "failed")) ∧
    (ts.foldl tallyStep acc).1.blocked =
      acc.1.blocked + ts.countP (fun t => decide (t.status = "blocked")) ∧
    (ts.foldl tallyStep acc).1.pending =
      acc.1.pending + ts.countP (fun t =>
        decide (t.status ≠ "passed" ∧ t.status ≠ "failed" ∧ t.status ≠ "blocked")) ∧
    (ts.foldl tallyStep acc).1.required_passed =
      acc.1.required_passed + ts.countP (fun t =>
        decide (t.required = true ∧ t.status = "passed")) ∧
    (ts.foldl tallyStep acc).1.required_total =
      acc.1.required_total + ts.countP (fun t => decide (t.required = true)) ∧
    (ts.foldl tallyStep acc).2 = (acc.2 && ts.all (fun t => t.red_verified)) ∧
    (ts.foldl tallyStep acc).1.tests = acc.1.tests ++ ts.map infoOf := by
  induction ts with
  | nil => intro acc; simp
  | cons t ts ih =>
    intro acc
    obtain ⟨e1, e2, e3, e4, e5, e6, e7, e8, e9, e10⟩ := ih (tallyStep acc t)
    obtain ⟨s1, s2, s3, s4, s5, s6, s7, s8, s9, s10⟩ := tallyStep_spec acc t
    simp only [List.foldl_cons, List.countP_cons, List.all_cons, List.map_cons]
    refine ⟨?_, ?_, ?_, ?_, ?_, ?_, ?_, ?_, ?_, ?_⟩
    · rw [e1, s1]
    · rw [e2, s2]
    · rw [e3, s3]; by_cases h : t.status = "passed" <;> (simp [h]; try omega)
    · rw [e4, s4]; by_cases h : t.status = "failed" <;> (simp [h]; try omega)
    · rw [e5, s5]; by_cases h : t.status = "blocked" <;> (simp [h]; try omega)
    · rw [e6, s6]
      by_cases h : t.status ≠ "passed" ∧ t.status ≠ "failed" ∧ t.status ≠ "blocked" <;>
        (simp [h]; try omega)
    · rw [e7, s7]; by_cases h : t.required = true ∧ t.status = "passed" <;> (simp [h]; try omega)
    · rw [e8, s8]; by_cases h : t.required = true <;> (simp [h]; try omega)
    · rw [e9, s9, Bool.and_assoc]
    · rw [e10, s10, List.append_assoc]; rfl

/-- The four status buckets are mutually exclusive and exhaustive, so
their counts add up to the length of the record list. -/
lemma countP_status_partition (ts : List RawTest) :
    ts.countP (fun t => decide (t.status = "passed")) +
    ts.countP (fun t => decide (t.status = "failed")) +
    ts.countP (fun t => decide (t.status = "blocked")) +
    ts.countP (fun t =>
      decide (t.status ≠ "passed" ∧ t.status ≠ "failed" ∧ t.status ≠ "blocked")) =
    ts.length := by
  induction ts with
  | nil => simp
  | cons t ts ih =>
    simp only [List.countP_cons, List.length_cons]
    by_cases hp : t.status = "passed" <;>
      by_cases hf : t.status = "failed" <;>
        by_cases hb : t.status = "blocked" <;>
          simp_all <;> omega

/-- Field-by-field effect of folding the record loop of check_tests in
check_tests.py. -/
lemma foldl_stepStandalone_spec (ts : List RawTest) : ∀ (acc : LoopAcc),
    (ts.foldl stepStandalone acc).all_red = (acc.all_red && ts.all (fun t => t.red_verified)) ∧
    (ts.foldl stepStandalone acc).all_traj =
      (acc.all_traj && ts.all (fun t => !(decide (t.status = "passed") && t.trajectory.isEmpty))) ∧
    (ts.foldl stepStandalone acc).tests = acc.tests ++ ts.map recordDetail ∧
    (ts.foldl stepStandalone acc).issues = acc.issues ++ ts.flatMap recordIssuesGlobal ∧
    (ts.foldl stepStandalone acc).cases.map (fun sc => (sc.name, sc.covered)) =
      acc.cases.map (fun sc => (sc.name, sc.covered || ts.any (fun t => coverMatch sc.name t))) := by
  induction ts with
  | nil => intro acc; simp
  | cons t ts ih =>
    intro acc
    obtain ⟨i1, i2, i3, i4, i5⟩ := ih (stepStandalone acc t)
    refine ⟨?_, ?_, ?_, ?_, ?_⟩
    · rw [List.foldl_cons, i1]
      simp [stepStandalone, Bool.and_assoc]
    · rw [List.foldl_cons, i2]
      simp [stepStandalone, Bool.and_assoc]
    · rw [List.foldl_cons, i3]
      simp [stepStandalone]
    · rw [List.foldl_cons, i4]
      simp [stepStandalone, recordIssuesGlobal]
    · rw [List.foldl_cons, i5]
      show (stepStandalone acc t).cases.map (fun sc => (sc.name, sc.covered || ts.any (fun u => coverMatch sc.name u))) = _
      simp only [stepStandalone, List.map_map]
      have hfun : ((fun sc => (sc.name, sc.covered || ts.any (fun u => coverMatch sc.name u))) ∘
          (fun sc => if coverMatch sc.name t then { sc with covered := true, test_id := some (recordDetail t).id } else sc)) =
          (fun sc : SpecCase => (sc.name, sc.covered || (t :: ts).any (fun u => coverMatch sc.name u))) := by
        funext sc
        by_cases h : coverMatch sc.name t = true
        · simp [h]
        · simp [h, Bool.or_assoc]
      rw [hfun]

/-- C10: for every successfully parsed manifest, the aggregator of
check_ticket.py counts each record in exactly one of the four buckets
passed, failed, blocked, pending; a record whose status is none of
passed, failed, blocked (a pending, running or unrecognized status)
lands in the pending bucket, and the four buckets sum to the total. -/
theorem C10_bucket_partition (ts : List RawTest) :
    (check_tests_ct (ManifestFile.parsed ts)).total = ts.length ∧
    (check_tests_ct (ManifestFile.parsed ts)).passed =
      ts.countP (fun t => decide (t.status = "passed")) ∧
    (check_tests_ct (ManifestFile.parsed ts)).failed =
      ts.countP (fun t => decide (t.status = "failed")) ∧
    (check_tests_ct (ManifestFile.parsed ts)).blocked =
      ts.countP (fun t => decide (t.status = "blocked")) ∧
    (check_tests_ct (ManifestFile.parsed ts)).pending =
      ts.countP (fun t =>
        decide (t.status ≠ "passed" ∧ t.status ≠ "failed" ∧ t.status ≠ "blocked")) ∧
    (check_tests_ct (ManifestFile.parsed ts)).passed +
      (check_tests_ct (ManifestFile.parsed ts)).failed +
      (check_tests_ct (ManifestFile.parsed ts)).blocked +
      (check_tests_ct (ManifestFile.parsed ts)).pending =
      (check_tests_ct (ManifestFile.parsed ts)).total := by
  obtain ⟨e1, e2, e3, e4, e5, e6, e7, e8, e9, e10⟩ :=
    foldl_tallyStep_spec ts ({ exists_ := true, total := ts.length }, true)
  simp at e2 e3 e4 e5 e6
  have h2 : (check_tests_ct (ManifestFile.parsed ts)).total = ts.length := by
    simp only [check_tests_ct]; simpa using e2
  have h3 : (check_tests_ct (ManifestFile.parsed ts)).passed =
      ts.countP (fun t => decide (t.status = "passed")) := by
    simp only [check_tests_ct]; simpa using e3
  have h4 : (check_tests_ct (ManifestFile.parsed ts)).failed =
      ts.countP (fun t => decide (t.status = "failed")) := by
    simp only [check_tests_ct]; simpa using e4
  have h5 : (check_tests_ct (ManifestFile.parsed ts)).blocked =
      ts.countP (fun t => decide (t.status = "blocked")) := by
    simp only [check_tests_ct]; simpa using e5
  have h6 : (check_tests_ct (ManifestFile.parsed ts)).pending =
      ts.countP (fun t =>
        decide (t.status ≠ "passed" ∧ t.status ≠ "failed" ∧ t.status ≠ "blocked")) := by
    simp only [check_tests_ct]; simpa using e6
  exact ⟨h2, h3, h4, h5, h6, by
    rw [h3, h4, h5, h6, h2]; exact countP_status_partition ts⟩

/-- C2: for every loaded manifest, all_red_verified holds exactly when
the manifest is non-empty and every record is red-verified; an empty
manifest yields false. Stated for the aggregator of check_ticket.py
and for the aggregator of check_tests.py. -/
theorem C2_all_red_verified (ts : List RawTest) (tid : String)
    (spec : Option (List String)) :
    ((check_tests_ct (ManifestFile.parsed ts)).all_red_verified = true ↔
      (ts ≠ [] ∧ ∀ t ∈ ts, t.red_verified = true)) ∧
    (check_tests_ct (ManifestFile.parsed [])).all_red_verified = false ∧
    ((checkTestsStandalone tid spec (ManifestFile.parsed ts)).all_red_verified = true ↔
      (ts ≠ [] ∧ ∀ t ∈ ts, t.red_verified = true)) := by
  obtain ⟨e1, e2, e3, e4, e5, e6, e7, e8, e9, e10⟩ :=
    foldl_tallyStep_spec ts ({ exists_ := true, total := ts.length }, true)
  simp at e2 e9
  refine ⟨?_, by simp [check_tests_ct], ?_⟩
  · have hv : (check_tests_ct (ManifestFile.parsed ts)).all_red_verified =
        ((ts.foldl tallyStep ({ exists_ := true, total := ts.length }, true)).2 &&
          decide (0 < (ts.foldl tallyStep
            ({ exists_ := true, total := ts.length }, true)).1.total)) := by
      simp [check_tests_ct]
    rw [hv, e9, e2]
    simp [List.all_eq_true, List.length_pos]
    constructor
    · rintro ⟨h1, h2⟩; exact ⟨h2, h1⟩
    · rintro ⟨h1, h2⟩; exact ⟨h2, h1⟩
  · rcases eq_or_ne ts [] with rfl | hne
    · simp [checkTestsStandalone]
    · have hlen : ts.length = 0 ↔ False := by
        simp [List.length_eq_zero, hne]
      obtain ⟨a1, a2, a3, a4, a5⟩ := foldl_stepStandalone_spec ts
        { tests := [], issues := [], all_red := true, all_traj := true,
          cases := ((spec.getD []).map (fun c => { name := c, covered := false : SpecCase })) }
      simp only [checkTestsStandalone, hlen, if_false]
      split
      · simp only [a1]
        simp [List.all_eq_true, hne]
      · simp only [a1]
        simp [List.all_eq_true, hne]

/-- C3 counterexample: the lifecycle classifier of check_ticket.py maps
a malformed manifest to exactly the state of an absent manifest: the
same classification needs-tests with the absent-manifest detail, so the
lifecycle neither blocks on fixing the manifest nor distinguishes
malformed from absent. -/
theorem C3_counterexample :
    check_ticket "T00021" fsMalSample = check_ticket "T00021" fsAbsSample ∧
    (check_ticket "T00021" fsMalSample).next_step = "needs-tests" ∧
    (check_ticket "T00021" fsMalSample).next_step_detail =
      "No tests.json found - create test definitions" := by
  decide

/-- C3 amended: the standalone test checker check_tests.py reports a
distinct diagnostic carrying the parse complaint and directs fixing the
manifest syntax, with tests_json_exists distinguishing the malformed
state from absence; the lifecycle aggregator of check_ticket.py however
treats a malformed manifest identically to an absent one. -/
theorem C3_amended (tid : String) (spec : Option (List String)) (e : String) :
    (checkTestsStandalone tid spec (ManifestFile.malformed e)).issues =
      ["Failed to parse tests.json: " ++ e] ∧
    (checkTestsStandalone tid spec (ManifestFile.malformed e)).next_step =
      "Fix tests.json syntax" ∧
    (checkTestsStandalone tid spec (ManifestFile.malformed e)).tests_json_exists = true ∧
    (checkTestsStandalone tid spec ManifestFile.absent).issues = ["tests.json not found"] ∧
    (checkTestsStandalone tid spec ManifestFile.absent).next_step =
      "Create tests.json from 3-spec.md" ∧
    (checkTestsStandalone tid spec ManifestFile.absent).tests_json_exists = false ∧
    check_tests_ct (ManifestFile.malformed e) = check_tests_ct ManifestFile.absent := by
  refine ⟨rfl, rfl, rfl, rfl, rfl, rfl, rfl⟩

/-- C5 counterexample: a passed record with no trajectory and no RED
marker in it produces the missing-trajectory diagnostic but not the
missing-RED-marker diagnostic, so the four conditions are not all
independently reported. -/
theorem C5_counterexample :
    isSubstrOf "[RED]" (joinSpace ([] : List String)) = false ∧
    ("Trajectory missing [RED] marker" ∉
      (recordDetail ⟨"t1", "n1", "passed", true, false, []⟩).issues) ∧
    ("Passed but no trajectory recorded" ∈
      (recordDetail ⟨"t1", "n1", "passed", true, false, []⟩).issues) := by
  decide

/-- C5 amended: for a passed record the four diagnostics are pairwise
distinct messages; the missing-trajectory and missing-red-verified
conditions are reported independently, while the two marker diagnostics
are emitted only when a trajectory is present (and then independently
of each other and of red_verified). -/
theorem C5_amended (t : RawTest) (h : t.status = "passed") :
    (("Passed but no trajectory recorded" ∈ (recordDetail t).issues) ↔ t.trajectory = []) ∧
    (("Passed but RED phase not verified" ∈ (recordDetail t).issues) ↔
      t.red_verified = false) ∧
    (("Trajectory missing [RED] marker" ∈ (recordDetail t).issues) ↔
      (t.trajectory ≠ [] ∧ isSubstrOf "[RED]" (joinSpace t.trajectory) = false)) ∧
    (("Trajectory missing [GREEN] marker" ∈ (recordDetail t).issues) ↔
      (t.trajectory ≠ [] ∧ isSubstrOf "[GREEN]" (joinSpace t.trajectory) = false)) ∧
    ([("Passed but no trajectory recorded" : String),
      "Passed but RED phase not verified",
      "Trajectory missing [RED] marker",
      "Trajectory missing [GREEN] marker"].Pairwise (fun a b => a ≠ b)) := by
  have hlen : t.trajectory = [] ↔ ¬(0 < t.trajectory.length) := by
    simp [List.length_pos]
  by_cases h1 : 0 < t.trajectory.length <;>
    by_cases h2 : t.red_verified = false <;>
      by_cases h3 : isSubstrOf "[RED]" (joinSpace t.trajectory) = false <;>
        by_cases h4 : isSubstrOf "[GREEN]" (joinSpace t.trajectory) = false <;>
          simp_all [recordDetail, List.length_pos]

/-- C5 witness: the amended characterization applied to a concrete
passed record having a trajectory that lacks both markers. -/
theorem C5_witness :
    ("Trajectory missing [RED] marker" ∈
      (recordDetail ⟨"t2", "n2", "passed", true, true, ["step one"]⟩).issues) ∧
    ("Passed but no trajectory recorded" ∉
      (recordDetail ⟨"t2", "n2", "passed", true, true, ["step one"]⟩).issues) := by
  have hc := C5_amended ⟨"t2", "n2", "passed", true, true, ["step one"]⟩ (by decide)
  exact ⟨hc.2.2.1.mpr (by decide), fun hm => by simpa using hc.1.mp hm⟩

/-- C7 counterexample: a declared spec case whose name strictly contains
a record identifier (while neither name-direction substring condition
holds) is left uncovered by check_tests.py, although the claimed rule
(case name contains the record name or identifier) marks it covered. -/
theorem C7_counterexample :
    isSubstrOf (lowerStr "abc") (lowerStr "test_abc_extra") = true ∧
    (checkTestsStandalone "T1" (some ["test_abc_extra"])
      (ManifestFile.parsed [⟨"abc", "zzz", "passed", true, true,
        ["[RED]", "[GREEN]"]⟩])).spec_cases =
      [{ name := "test_abc_extra", covered := false, test_id := none }] := by
  decide

/-- C7 amended: a declared spec case is marked covered exactly when some
record of the manifest matches it, where matching means the lowercased
case name is a substring of the whitespace-normalized lowercased record
name, or a substring of the lowercased record identifier, or the
normalized record name is a substring of the case name (the identifier
is not tested in the containment direction). -/
theorem C7_amended (tid : String) (cs : List String) (ts : List RawTest) :
    (checkTestsStandalone tid (some cs) (ManifestFile.parsed ts)).spec_cases.map
        (fun sc => (sc.name, sc.covered)) =
      cs.map (fun c => (c, ts.any (fun t =>
        isSubstrOf (lowerStr c) (underscoreLower t.name) ||
        isSubstrOf (lowerStr c) (lowerStr t.id) ||
        isSubstrOf (underscoreLower t.name) (lowerStr c)))) := by
  rcases eq_or_ne ts [] with rfl | hne
  · simp [checkTestsStandalone]
  · have hlen : (ts.length = 0) = False := by
      simp [List.length_eq_zero, hne]
    obtain ⟨a1, a2, a3, a4, a5⟩ := foldl_stepStandalone_spec ts
      { tests := [], issues := [], all_red := true, all_traj := true,
        cases := (((some cs).getD []).map (fun c => { name := c, covered := false : SpecCase })) }
    simp only [checkTestsStandalone, hlen, if_false]
    split
    · rw [a5]
      simp [coverMatch, List.map_map, Function.comp]
    · rw [a5]
      simp [coverMatch, List.map_map, Function.comp]

/-- C9 counterexample: the not-found classification (missing-docs, the
one produced for an absent ticket directory) and an actionable-issue
classification (needs-tests) are mapped to the same exit code, so the
four coarse outcome buckets do not each receive their own value. -/
theorem C9_counterexample :
    (check_ticket "T00099" { dir := none, manifest := ManifestFile.absent }).next_step =
      "missing-docs" ∧
    exit_code "missing-docs" = 1 ∧
    exit_code "needs-tests" = 1 ∧
    exit_code "missing-docs" = exit_code "needs-tests" := by
  decide

/-- C9 amended: the exit status is a fixed three-value enumeration:
0 for complete, 2 for blocked, and 1 for every other classification
(the not-found and actionable-issue buckets share the value 1). -/
theorem C9_amended :
    exit_code "complete" = 0 ∧ exit_code "blocked" = 2 ∧
    (∀ s : String, s ≠ "complete" → s ≠ "blocked" → exit_code s = 1) := by
  refine ⟨by decide, by decide, ?_⟩
  intro s h1 h2
  simp [exit_code, h1, h2]

/-- C9 witness: the amended mapping applied to the missing-docs
classification. -/
theorem C9_witness : exit_code "missing-docs" = 1 :=
  C9_amended.2.2 "missing-docs" (by decide) (by decide)

/-- A case-insensitive literal match survives extending the input on
the right. -/
lemma matchCI_append (pat : List Char) : ∀ (s e r : List Char),
    matchCI pat s = some r → matchCI pat (s ++ e) = some (r ++ e) := by
  induction pat with
  | nil => intro s e r h; simp [matchCI] at h; simp [matchCI, h]
  | cons p ps ih =>
    intro s e r h
    cases s with
    | nil => simp [matchCI] at h
    | cons c cs =>
      simp only [matchCI] at h
      by_cases hc : c.toLower = p
      · rw [if_pos hc] at h
        simpa [matchCI, hc] using ih cs e r h
      · rw [if_neg hc] at h; exact absurd h (by simp)

/-- A successful case-insensitive match consumes a prefix of its
input. -/
lemma matchCI_suffix (pat : List Char) : ∀ (s r : List Char),
    matchCI pat s = some r → ∃ p, p ++ r = s := by
  induction pat with
  | nil => intro s r h; simp [matchCI] at h; exact ⟨[], by simp [h]⟩
  | cons p ps ih =>
    intro s r h
    cases s with
    | nil => simp [matchCI] at h
    | cons c cs =>
      simp only [matchCI] at h
      by_cases hc : c.toLower = p
      · rw [if_pos hc] at h
        obtain ⟨q, hq⟩ := ih cs r h
        exact ⟨c :: q, by simp [hq]⟩
      · rw [if_neg hc] at h; exact absurd h (by simp)

/-- When dropWhile leaves something of the first list, appending a
second list extends the remainder unchanged. -/
lemma dropWhile_append_of_ne_nil (q : Char → Bool) :
    ∀ (l1 l2 : List Char), l1.dropWhile q ≠ [] →
      (l1 ++ l2).dropWhile q = l1.dropWhile q ++ l2 := by
  intro l1 l2
  induction l1 with
  | nil => intro h; simp at h
  | cons c cs ih =>
    intro h
    by_cases hc : q c
    · simp only [List.dropWhile_cons, hc] at h ⊢
      simpa [hc] using ih h
    · simp [List.dropWhile_cons, hc]

/-- The TDD opt-out match at a position survives extending the text on
the right. -/
lemma tddNoAt_append (s e : List Char) (h : tddNoAt s = true) :
    tddNoAt (s ++ e) = true := by
  cases hm : matchCI "tdd:".data s with
  | none => simp [tddNoAt, hm] at h
  | some r =>
    simp only [tddNoAt, hm] at h
    cases hn : matchCI "no".data (r.dropWhile isSpaceChar) with
    | none => simp [hn] at h
    | some r2 =>
      have hne : r.dropWhile isSpaceChar ≠ [] := by
        intro hnil
        rw [hnil] at hn
        simp [matchCI] at hn
      simp only [tddNoAt, matchCI_append _ s e r hm,
        dropWhile_append_of_ne_nil isSpaceChar r e hne,
        matchCI_append _ _ e r2 hn, Option.isSome_some]

/-- The opt-out search survives extending the text on the right. -/
lemma containsTddNoL_append_right : ∀ (b e : List Char),
    containsTddNoL b = true → containsTddNoL (b ++ e) = true := by
  intro b e
  induction b with
  | nil => intro h; simp [containsTddNoL] at h
  | cons c cs ih =>
    intro h
    simp only [containsTddNoL, Bool.or_eq_true] at h
    rcases h with h | h
    · have h2 := tddNoAt_append (c :: cs) e h
      simp only [List.cons_append] at h2 ⊢
      simp only [containsTddNoL, Bool.or_eq_true]
      exact Or.inl h2
    · simp only [List.cons_append, containsTddNoL, Bool.or_eq_true]
      exact Or.inr (ih h)

/-- The opt-out search survives extending the text on the left. -/
lemma containsTddNoL_append_left : ∀ (a b : List Char),
    containsTddNoL b = true → containsTddNoL (a ++ b) = true := by
  intro a b h
  induction a with
  | nil => simpa using h
  | cons c cs ih =>
    simp only [List.cons_append, containsTddNoL, Bool.or_eq_true]
    exact Or.inr ih

/-- The captured section body is a prefix of the text after the
header. -/
lemma takeUntilNlHH_part (s : List Char) : ∃ e, takeUntilNlHH s ++ e = s := by
  induction s with
  | nil => exact ⟨[], rfl⟩
  | cons c cs ih =>
    by_cases h : c = '\n' ∧ startsWithL "##".data cs = true
    · exact ⟨c :: cs, by simp [takeUntilNlHH, h]⟩
    · obtain ⟨e, he⟩ := ih
      exact ⟨e, by simp [takeUntilNlHH, h, he]⟩

/-- The whitespace-newline consumer returns a suffix of its input. -/
lemma consumeWsNl_suffix : ∀ (s r : List Char),
    consumeWsNl s = some r → ∃ p, p ++ r = s := by
  intro s
  induction s with
  | nil => intro r h; simp [consumeWsNl] at h
  | cons c cs ih =>
    intro r h
    simp only [consumeWsNl] at h
    by_cases hc : c = '\n'
    · rw [if_pos hc] at h
      cases hr : consumeWsNl cs with
      | some r2 =>
        rw [hr] at h
        obtain ⟨p, hp⟩ := ih r2 hr
        cases h
        exact ⟨c :: p, by simp [hp]⟩
      | none =>
        rw [hr] at h
        cases h
        exact ⟨[c], rfl⟩
    · rw [if_neg hc] at h
      by_cases hs : isSpaceChar c = true
      · rw [if_pos hs] at h
        obtain ⟨p, hp⟩ := ih r h
        exact ⟨c :: p, by simp [hp]⟩
      · rw [if_neg hs] at h; exact absurd h (by simp)

/-- A successful header match returns a suffix of its input. -/
lemma headerMatchAt_suffix (s a : List Char) (h : headerMatchAt s = some a) :
    ∃ p, p ++ a = s := by
  cases s with
  | nil => simp [headerMatchAt] at h
  | cons c1 s1 =>
    cases s1 with
    | nil => simp [headerMatchAt] at h
    | cons c2 rest =>
      by_cases h12 : c1 = '#' ∧ c2 = '#'
      · simp only [headerMatchAt, if_pos h12] at h
        cases hm : matchCI "constraints".data (rest.dropWhile isSpaceChar) with
        | none => rw [hm] at h; simp at h
        | some r =>
          rw [hm] at h
          obtain ⟨p1, hp1⟩ := matchCI_suffix _ _ r hm
          obtain ⟨p2, hp2⟩ := consumeWsNl_suffix r a h
          refine ⟨c1 :: c2 :: (rest.takeWhile isSpaceChar ++ p1 ++ p2), ?_⟩
          simp only [List.cons_append, List.append_assoc]
          rw [hp2, hp1, List.takeWhile_append_dropWhile isSpaceChar rest]
      · simp [headerMatchAt, if_neg h12] at h

/-- The Constraints section body found by the leftmost search is an
infix of the whole document. -/
lemma findConstraintsFrom_infix : ∀ (s body : List Char),
    findConstraintsFrom s = some body → ∃ p e, p ++ (body ++ e) = s := by
  intro s
  induction s with
  | nil => intro body h; simp [findConstraintsFrom] at h
  | cons c cs ih =>
    intro body h
    simp only [findConstraintsFrom] at h
    cases hh : headerMatchAt (c :: cs) with
    | some afterHdr =>
      rw [hh] at h
      cases h
      obtain ⟨p, hp⟩ := headerMatchAt_suffix _ _ hh
      obtain ⟨e, he⟩ := takeUntilNlHH_part afterHdr
      exact ⟨p, e, by rw [he, hp]⟩
    | none =>
      rw [hh] at h
      obtain ⟨p, e, hpe⟩ := ih body h
      exact ⟨c :: p, e, by simp [hpe]⟩

/-- C4: the TDD gate resolves to enabled by default: it is enabled when
the definition document is absent and when no Constraints section is
found; it is disabled only when the opt-out marker occurs inside the
captured Constraints section body; and a document containing no opt-out
marker at all (in particular one whose markers all lie outside the
Constraints section body) never disables the gate. -/
theorem C4_tdd_gate :
    check_tdd_enabled none = true ∧
    (∀ c : String, findConstraintsFrom c.data = none → check_tdd_enabled (some c) = true) ∧
    (∀ c : String, check_tdd_enabled (some c) = false →
      ∃ body, findConstraintsFrom c.data = some body ∧ containsTddNoL body = true) ∧
    (∀ c : String, containsTddNoL c.data = false → check_tdd_enabled (some c) = true) := by
  refine ⟨rfl, ?_, ?_, ?_⟩
  · intro c h; simp [check_tdd_enabled, h]
  · intro c h
    cases hf : findConstraintsFrom c.data with
    | none => simp [check_tdd_enabled, hf] at h
    | some body =>
      simp only [check_tdd_enabled, hf, Bool.not_eq_false'] at h
      exact ⟨body, rfl, h⟩
  · intro c h
    cases hf : findConstraintsFrom c.data with
    | none => simp [check_tdd_enabled, hf]
    | some body =>
      cases hb : containsTddNoL body with
      | false => simp [check_tdd_enabled, hf, hb]
      | true =>
        obtain ⟨p, e, hpe⟩ := findConstraintsFrom_infix c.data body hf
        have h1 := containsTddNoL_append_right body e hb
        have h2 := containsTddNoL_append_left p (body ++ e) h1
        rw [hpe] at h2
        rw [h2] at h
        simp at h

/-- C4 witness: an opt-out marker before the Constraints header does
not disable the gate, and a Constraints section without the marker
leaves it enabled. -/
theorem C4_witness :
    check_tdd_enabled (some "TDD: no\n## Notes\nmore prose") = true ∧
    check_tdd_enabled (some "## Constraints\n- keep it small\n") = true :=
  ⟨C4_tdd_gate.2.1 "TDD: no\n## Notes\nmore prose" (by decide),
   C4_tdd_gate.2.2.2 "## Constraints\n- keep it small\n" (by decide)⟩

/-- When every required document is present the missing-docs filter is
empty. -/
lemma missing_docs_nil (st : TicketStatus)
    (hdocs : ∀ doc ∈ REQUIRED_DOCS, isDocPresent st.docs doc = true) :
    REQUIRED_DOCS.filter (fun doc => !isDocPresent st.docs doc) = [] := by
  rw [List.filter_eq_nil_iff]
  intro d hd
  simp [hdocs d hd]

/-- Rule 3 of the state machine: a COMPLETE disposition classifies the
ticket complete once the document gates pass, whatever the tests say. -/
lemma determine_complete_of (st : TicketStatus)
    (hex : st.exists_ = true)
    (hdocs : ∀ doc ∈ REQUIRED_DOCS, isDocPresent st.docs doc = true)
    (hspec : st.tdd_enabled = true → specLacksContent st.docs = false)
    (hfin : st.final_status = some FinalStatus.COMPLETE) :
    determine_next_step st = ("complete", "Ticket marked COMPLETE in 5-final.md") := by
  have hm := missing_docs_nil st hdocs
  have hns : ¬(st.tdd_enabled = true ∧ specLacksContent st.docs = true) := by
    rintro ⟨h1, h2⟩
    rw [hspec h1] at h2
    exact Bool.false_ne_true h2
  simp [determine_next_step, hex, hm, hfin, hns]

/-- C1: for every ticket whose directory exists with the definition,
plan and spec documents present (and, when the gate is enabled, a spec
with meaningful content), a COMPLETE disposition parsed from the
closing document forces the classification complete, with no condition
on the manifest state at all. -/
theorem C1_complete_authoritative (tid : String) (fs : TicketFS) (d : TicketDir)
    (hdir : fs.dir = some d)
    (hdef : (check_doc d.definition).exists_ = true)
    (hplan : (check_doc d.plan).exists_ = true)
    (hspec : (check_doc d.spec).exists_ = true)
    (hcontent : check_tdd_enabled d.definition = true →
      (check_doc d.spec).has_content = true)
    (hfinal : parse_final_status d.final = some FinalStatus.COMPLETE) :
    (check_ticket tid fs).next_step = "complete" := by
  have hd := determine_complete_of
    { ticket_id := tid
      exists_ := true
      tdd_enabled := check_tdd_enabled d.definition
      docs := [("1-definition.md", check_doc d.definition),
               ("2-plan.md", check_doc d.plan),
               ("3-spec.md", check_doc d.spec),
               ("4-progress.md", check_doc d.progress),
               ("5-final.md", check_doc d.final)]
      final_status := parse_final_status d.final
      tests := check_tests_ct fs.manifest }
    rfl
    (by
      intro doc hdoc
      fin_cases hdoc <;>
        simp [isDocPresent, docsGet, List.lookup, hdef, hplan, hspec])
    (by
      intro h
      simp [specLacksContent, docsGet, List.lookup, hcontent h])
    hfinal
  simp only [check_ticket, hdir, hd]

/-- C1 witness: a COMPLETE closing document over a manifest holding a
required failing record still classifies complete. -/
theorem C1_witness :
    (check_ticket "T00021" fsCompleteFailing).next_step = "complete" :=
  C1_complete_authoritative "T00021" fsCompleteFailing dirCompleteSample rfl
    (by decide) (by decide) (by decide) (by decide) (by decide)

/-- C8: when the document gates pass, the test gates all clear (or the
gate is disabled) and no disposition was parsed, the classification is
needs-final — covering the closing document being absent, present
without meaningful content, or present with content but no recognizable
token — and such a ticket is never classified complete. -/
theorem C8_needs_final (st : TicketStatus)
    (hex : st.exists_ = true)
    (hdocs : ∀ doc ∈ REQUIRED_DOCS, isDocPresent st.docs doc = true)
    (hspec : st.tdd_enabled = true → specLacksContent st.docs = false)
    (hfin : st.final_status = none)
    (hgate : st.tdd_enabled = true →
      st.tests.exists_ = true ∧ st.tests.total ≠ 0 ∧ st.tests.blocked = 0 ∧
      st.tests.all_red_verified = true ∧ st.tests.failed = 0 ∧ st.tests.pending = 0 ∧
      ¬(st.tests.required_passed < st.tests.required_total)) :
    (determine_next_step st).1 = "needs-final" ∧
    (determine_next_step st).1 ≠ "complete" := by
  have hm := missing_docs_nil st hdocs
  have hns : ¬(st.tdd_enabled = true ∧ specLacksContent st.docs = true) := by
    rintro ⟨h1, h2⟩
    rw [hspec h1] at h2
    exact Bool.false_ne_true h2
  have htail : (determine_next_step st).1 = "needs-final" := by
    by_cases htdd : st.tdd_enabled = true
    · obtain ⟨g1, g2, g3, g4, g5, g6, g7⟩ := hgate htdd
      simp only [determine_next_step, hex, hm, hfin, hns, g1, g2, g3, g4, g5, g6, g7]
      simp [g2, g3, g5, g6, g7]
      cases hlk : docsGet st.docs FINAL_DOC with
      | none => simp
      | some fdoc =>
        by_cases he : fdoc.exists_ = false
        · simp [he]
        · by_cases hc : fdoc.has_content = false
          · simp [he, hc]
          · simp [he, hc]
    · simp only [determine_next_step, hex, hm, hfin, hns, htdd]
      simp [htdd]
      cases hlk : docsGet st.docs FINAL_DOC with
      | none => simp
      | some fdoc =>
        by_cases he : fdoc.exists_ = false
        · simp [he]
        · by_cases hc : fdoc.has_content = false
          · simp [he, hc]
          · simp [he, hc]
  exact ⟨htail, by rw [htail]; decide⟩

/-- C8 witness: gate disabled, documents present, no closing document
and no disposition: the classification is needs-final. -/
theorem C8_witness :
    (determine_next_step stNeedsFinalSample).1 = "needs-final" :=
  (C8_needs_final stNeedsFinalSample rfl (by decide) (by decide) rfl (by decide)).1

/-- The aggregate fields check_tests of check_ticket.py computes for a
parsed manifest, in closed form. -/
lemma check_tests_ct_fields (ts : List RawTest) :
    (check_tests_ct (ManifestFile.parsed ts)).exists_ = true ∧
    (check_tests_ct (ManifestFile.parsed ts)).total = ts.length ∧
    (check_tests_ct (ManifestFile.parsed ts)).blocked =
      ts.countP (fun t => decide (t.status = "blocked")) ∧
    (check_tests_ct (ManifestFile.parsed ts)).failed =
      ts.countP (fun t => decide (t.status = "failed")) ∧
    (check_tests_ct (ManifestFile.parsed ts)).pending =
      ts.countP (fun t =>
        decide (t.status ≠ "passed" ∧ t.status ≠ "failed" ∧ t.status ≠ "blocked")) ∧
    (check_tests_ct (ManifestFile.parsed ts)).all_red_verified =
      (ts.all (fun t => t.red_verified) && decide (0 < ts.length)) := by
  obtain ⟨e1, e2, e3, e4, e5, e6, e7, e8, e9, e10⟩ :=
    foldl_tallyStep_spec ts ({ exists_ := true, total := ts.length }, true)
  simp at e1 e2 e4 e5 e6 e9
  refine ⟨?_, ?_, ?_, ?_, ?_, ?_⟩
  · simp only [check_tests_ct]; simpa using e1
  · simp only [check_tests_ct]; simpa using e2
  · simp only [check_tests_ct]; simpa using e5
  · simp only [check_tests_ct]; simpa using e4
  · simp only [check_tests_ct]; simpa using e6
  · simp only [check_tests_ct]
    simp [e9, e2]

/-- C6 (amended): with the document gates passed, the gate enabled, no
disposition, a non-empty parsed manifest, no blocked record, every
record RED-verified and no failed record, the classification is
needs-impl exactly when some record counts as pending (its status is
none of passed, failed, blocked — pending, running or unrecognized) or
fewer required records passed than exist. -/
theorem C6_needs_impl (st : TicketStatus) (ts : List RawTest)
    (hts : st.tests = check_tests_ct (ManifestFile.parsed ts))
    (hex : st.exists_ = true)
    (htdd : st.tdd_enabled = true)
    (hdocs : ∀ doc ∈ REQUIRED_DOCS, isDocPresent st.docs doc = true)
    (hspec : specLacksContent st.docs = false)
    (hfin : st.final_status = none)
    (hne : ts ≠ [])
    (hnoblk : ∀ t ∈ ts, t.status ≠ "blocked")
    (hred : ∀ t ∈ ts, t.red_verified = true)
    (hnofail : ∀ t ∈ ts, t.status ≠ "failed") :
    ((determine_next_step st).1 = "needs-impl" ↔
      ((∃ t ∈ ts, t.status ≠ "passed" ∧ t.status ≠ "failed" ∧ t.status ≠ "blocked") ∨
        st.tests.required_passed < st.tests.required_total)) := by
  have hm := missing_docs_nil st hdocs
  have hns : ¬(st.tdd_enabled = true ∧ specLacksContent st.docs = true) := by
    rintro ⟨h1, h2⟩
    rw [hspec] at h2
    exact Bool.false_ne_true h2
  obtain ⟨f1, f2, f3, f4, f5, f6⟩ := check_tests_ct_fields ts
  have hex2 : st.tests.exists_ = true := by rw [hts]; exact f1
  have htot : ¬(st.tests.total = 0) := by
    rw [hts, f2]
    simpa using hne
  have hbl : st.tests.blocked = 0 := by
    rw [hts, f3, List.countP_eq_zero]
    intro t ht
    simpa using hnoblk t ht
  have hfl : st.tests.failed = 0 := by
    rw [hts, f4, List.countP_eq_zero]
    intro t ht
    simpa using hnofail t ht
  have hpend : st.tests.pending = ts.countP (fun t =>
      decide (t.status ≠ "passed" ∧ t.status ≠ "failed" ∧ t.status ≠ "blocked")) := by
    rw [hts]; exact f5
  have hrv : st.tests.all_red_verified = true := by
    rw [hts, f6]
    have h1 : ts.all (fun t => t.red_verified) = true := List.all_eq_true.mpr hred
    have h2 : 0 < ts.length := List.length_pos.mpr hne
    simp [h1, h2]
  by_cases hp : 0 < st.tests.pending
  · have hlhs : (determine_next_step st).1 = "needs-impl" := by
      simp [determine_next_step, hex, hm, hns, hspec, hfin, htdd, hex2, htot, hbl, hrv, hfl, hp]
    have hr2 : ∃ t ∈ ts, t.status ≠ "passed" ∧ t.status ≠ "failed" ∧ t.status ≠ "blocked" := by
      rw [hpend] at hp
      obtain ⟨t, ht, hpt⟩ := List.countP_pos_iff.mp hp
      exact ⟨t, ht, by simpa using hpt⟩
    simp [hlhs, hr2]
  · by_cases hr : st.tests.required_passed < st.tests.required_total
    · have hlhs : (determine_next_step st).1 = "needs-impl" := by
        simp [determine_next_step, hex, hm, hns, hspec, hfin, htdd, hex2, htot, hbl, hrv, hfl, hp, hr]
      simp [hlhs, hr]
    · have htail : (determine_next_step st).1 = "needs-final" ∨
          (determine_next_step st).1 = "complete" := by
        simp only [determine_next_step, hex, hm, hns, hspec, hfin, htdd, hex2, htot, hbl, hrv,
          hfl, hp, hr]
        simp [hspec, htot, hbl, hfl, hp, hr]
        cases hlk : docsGet st.docs FINAL_DOC with
        | none => simp
        | some fdoc =>
          by_cases he : fdoc.exists_ = false
          · simp [he]
          · by_cases hc : fdoc.has_content = false
            · simp [he, hc]
            · simp [he, hc]
      have hnp : ¬∃ t ∈ ts, t.status ≠ "passed" ∧ t.status ≠ "failed" ∧
          t.status ≠ "blocked" := by
        rintro ⟨t, ht, h1, h2, h3⟩
        apply hp
        rw [hpend]
        exact List.countP_pos_iff.mpr ⟨t, ht, by simp [h1, h2, h3]⟩
      constructor
      · intro h
        rcases htail with h2 | h2 <;> rw [h2] at h <;> exact absurd h (by decide)
      · rintro (h | h)
        · exact absurd h hnp
        · exact absurd h hr

/-- C6 witness: a single RED-verified required pending record yields the
needs-impl classification. -/
theorem C6_witness :
    (determine_next_step stNeedsImplSample).1 = "needs-impl" :=
  (C6_needs_impl stNeedsImplSample tsPendingSample rfl rfl rfl (by decide) (by decide)
    rfl (by decide) (by decide) (by decide) (by decide)).mpr
    (Or.inl ⟨{ id := "t1", name := "check pends", status := "pending", required := true,
               red_verified := true, trajectory := ["[RED] attempt"] },
      by decide, by decide, by decide, by decide⟩)

/-- C6 counterexample to the claim as stated: a manifest holding one
optional RED-verified running record passes every earlier gate and is
classified needs-impl, yet no record has status pending and the
required-passed count is not below the required total. -/
theorem C6_counterexample :
    (check_ticket "T00021" fsRunningSample).next_step = "needs-impl" ∧
    (∀ t ∈ tsRunningSample, t.status ≠ "pending") ∧
    (check_ticket "T00021" fsRunningSample).tests.required_passed = 0 ∧
    (check_ticket "T00021" fsRunningSample).tests.required_total = 0 ∧
    (check_ticket "T00021" fsRunningSample).tdd_enabled = true ∧
    (check_ticket "T00021" fsRunningSample).final_status = none ∧
    (check_ticket "T00021" fsRunningSample).tests.blocked = 0 ∧
    (check_ticket "T00021" fsRunningSample).tests.failed = 0 ∧
    (check_ticket "T00021" fsRunningSample).tests.all_red_verified = true := by
  decide

end PMC
